import Mathlib

/-!
Verification of the DeckCheck analysis pipeline (src/Py/deckcheck/app.py and
src/Py/demo/conversation-tool.py): a shallow embedding of the metric-extractor
tool `calculate_slide_metric`, the response normalizer `make_frames`, and the
render/chat orchestration, with theorems settling the spec's claims about them.

Python strings are embedded as `List Char`, Python dicts as ordered
association lists, Python floats as `ℚ`, and fallible Python code as
`Except PyError`.
-/

/-! ## Python-like string splitting

`str.split(sep)` for a non-empty separator: the fragments between
non-overlapping, leftmost-first occurrences of `sep`.  The recursion consumes
at least one character per step, so `fuel = s.length` always suffices; the
fuel argument keeps the definition structurally recursive.
-/

/-- One step per character: on a separator match the separator is consumed and
a new fragment starts, otherwise the character joins the current fragment. -/
def splitOnSubAux (sep : List Char) : Nat → List Char → List (List Char)
  | _, [] => [[]]
  | 0, _ :: _ => [[]]
  | fuel + 1, c :: rest =>
    if (!sep.isEmpty) && sep.isPrefixOf (c :: rest) then
      [] :: splitOnSubAux sep fuel (List.drop (sep.length - 1) rest)
    else
      match splitOnSubAux sep fuel rest with
      | [] => [[c]]
      | f :: fs => (c :: f) :: fs

/-- Python `s.split(sep)` for non-empty `sep`, as a list of fragments. -/
def splitOnSub (sep s : List Char) : List (List Char) :=
  splitOnSubAux sep s.length s

/-- The number of non-overlapping, leftmost-first occurrences of `sep` in
`s` — the number of slide-boundary markers when `sep` is the section tag. -/
def countSubstrAux (sep : List Char) : Nat → List Char → Nat
  | _, [] => 0
  | 0, _ :: _ => 0
  | fuel + 1, c :: rest =>
    if (!sep.isEmpty) && sep.isPrefixOf (c :: rest) then
      countSubstrAux sep fuel (List.drop (sep.length - 1) rest) + 1
    else
      countSubstrAux sep fuel rest

/-- Occurrence count of a substring, Python-style (non-overlapping). -/
def countSubstr (sep s : List Char) : Nat :=
  countSubstrAux sep s.length s

/-- Python `needle in hay` for strings: contiguous-substring containment. -/
def containsSub (needle : List Char) : List Char → Bool
  | [] => needle.isEmpty
  | c :: rest => needle.isPrefixOf (c :: rest) || containsSub needle rest

/-! ## Python round-half-to-even to two decimals -/

/-- Round a rational to the nearest integer, ties to the even neighbour
(Python's built-in `round`), in integer arithmetic on the reduced fraction:
with floor `f` and remainder `r` (so `0 ≤ r < den`), the fractional part
`r / den` is compared with one half via `2 * r` against `den`. -/
def roundHalfEven (q : ℚ) : ℤ :=
  let f := Int.fdiv q.num (q.den : ℤ)
  let r := q.num - f * (q.den : ℤ)
  if 2 * r < (q.den : ℤ) then f
  else if (q.den : ℤ) < 2 * r then f + 1
  else if f % 2 = 0 then f else f + 1

/-- Python `round(q, 2)`. -/
def pyRound2 (q : ℚ) : ℚ :=
  ((roundHalfEven (q * 100) : ℤ) : ℚ) / 100

/-! ## Errors and values -/

/-- The dynamic failures the embedded code can raise. -/
inductive PyError where
  | fileNotFound (path : String)
  | valueError (msg : String)
  | zeroDivision
  | keyError (k : String)
  | typeError (k : String)
  deriving DecidableEq

/-- A metric result: Python returns an `int` for the slide count and a
`float` for the percentages. -/
inductive MetricValue where
  | int (n : Nat)
  | float (q : ℚ)
  deriving DecidableEq

/-! ## The Metric Extractor (calculate_slide_metric)

src/Py/deckcheck/app.py lines 90-130 (identical in
src/Py/demo/conversation-tool.py lines 106-146).  The HTML path is a fixed
relative constant inside the function; the file system is passed explicitly
here.  Python division raises `ZeroDivisionError` on a zero denominator, so
the percentage branches carry that check explicitly.
-/

/-- The path hardcoded in `calculate_slide_metric`; it does not depend on the
current run. -/
def html_file : String := "./Quarto/docs/my-presentation.html"

/-- The slide-boundary marker the rendition is split on. -/
def section_marker : List Char := "<section".data

/-- The code-block marker looked for inside a slide fragment. -/
def code_marker : List Char := "class=\"sourceCode\"".data

/-- The embedded-image marker looked for inside a slide fragment. -/
def image_marker : List Char := "<img".data

/-- The body of `calculate_slide_metric` once the rendition's content has been
read: split into slide fragments, then dispatch on the metric name. -/
def slide_metric_of_content (html_content : List Char) (metric : String) :
    Except PyError MetricValue :=
  let slides := splitOnSub section_marker html_content
  let total_slides := slides.length
  if metric = "total_slides" then
    Except.ok (MetricValue.int total_slides)
  else if metric = "code" then
    if total_slides = 0 then Except.error PyError.zeroDivision
    else
      let slides_with_code := slides.countP (fun slide => containsSub code_marker slide)
      Except.ok (MetricValue.float (pyRound2 ((slides_with_code : ℚ) / (total_slides : ℚ) * 100)))
  else if metric = "images" then
    if total_slides = 0 then Except.error PyError.zeroDivision
    else
      let slides_with_image := slides.countP (fun slide => containsSub image_marker slide)
      Except.ok (MetricValue.float (pyRound2 ((slides_with_image : ℚ) / (total_slides : ℚ) * 100)))
  else
    Except.error (PyError.valueError "Unknown metric: choose total_slides, code, or images")

/-- `calculate_slide_metric(metric)`: reads the fixed `html_file` path from the
file system (raising `FileNotFoundError` when absent) and computes the metric.
Note the function takes no path parameter: the path is the constant above. -/
def calculate_slide_metric (fs : String → Option (List Char)) (metric : String) :
    Except PyError MetricValue :=
  match fs html_file with
  | none => Except.error (PyError.fileNotFound html_file)
  | some html_content => slide_metric_of_content html_content metric

/-! ## The Response Normalizer (make_frames)

src/Py/deckcheck/app.py lines 136-179.  The LLM's structured output is an
ordered dict; `make_frames` builds the meta dict from the six fixed keys
(raising `KeyError` on a missing one) and turns every other entry into an
eval record by subscripting its value with the four category fields.  Despite
the `# fix typo` comment in the source, no key is renamed anywhere.
-/

/-- A Python value as the normalizer sees it: the meta fields are scalars and
the evaluation entries are nested dicts. -/
inductive RawVal where
  | str (s : String)
  | intVal (n : ℤ)
  | floatVal (q : ℚ)
  | null
  | obj (fields : List (String × RawVal))

/-- An ordered Python dict. -/
abbrev PyDict := List (String × RawVal)

/-- Python `d[k]` on a dict: the value of the first (for a real dict, only)
entry with key `k`, else `KeyError`. -/
def dictGet : PyDict → String → Except PyError RawVal
  | [], k => Except.error (PyError.keyError k)
  | (k', v) :: rest, k => if k' = k then Except.ok v else dictGet rest k

/-- Python `v[k]` on a value that should be a nested dict: subscripting a
non-dict raises `TypeError`. -/
def getItem (v : RawVal) (k : String) : Except PyError RawVal :=
  match v with
  | RawVal.obj fields => dictGet fields k
  | _ => Except.error (PyError.typeError k)

/-- The six meta keys, in source order. -/
def meta_keys : List String :=
  ["presentation_title", "total_slides", "percent_with_code",
   "percent_with_images", "estimated_duration_minutes", "tone"]

/-- The eight evaluation categories of the `DeckAnalysis` schema, in source
order (spelled as in src/Py/deckcheck/app.py, where `consistency` is correct). -/
def category_keys : List String :=
  ["clarity", "relevance", "visual_design", "engagement",
   "pacing", "structure", "consistency", "accessibility"]

/-- One row of the evals frame. -/
structure EvalRecord where
  category : String
  score : RawVal
  justification : RawVal
  improvements : RawVal
  score_after_improvements : RawVal

/-- The normalizer's output: the meta dict and the evals rows. -/
structure FramesResult where
  meta : List (String × RawVal)
  evals : List EvalRecord

/-- `meta = (dictionary comprehension) for k in meta_keys` — `KeyError` at the first
missing key, in key order. -/
def build_meta (d : PyDict) : List String → Except PyError (List (String × RawVal))
  | [] => Except.ok []
  | k :: ks => do
    let v ← dictGet d k
    let rest ← build_meta d ks
    return (k, v) :: rest

/-- The evals loop: every entry whose key is not a meta key becomes a record,
its value subscripted with the four category fields (in source order). -/
def build_evals : PyDict → Except PyError (List EvalRecord)
  | [] => Except.ok []
  | (k, v) :: rest =>
    if k ∈ meta_keys then build_evals rest
    else do
      let score ← getItem v ("score")
      let justification ← getItem v ("justification")
      let improvements ← getItem v ("improvements")
      let sai ← getItem v ("score_after_improvements")
      let restEvals ← build_evals rest
      return ⟨k, score, justification, improvements, sai⟩ :: restEvals

/-- `make_frames(d)`: the meta dict plus the evals rows. -/
def make_frames (d : PyDict) : Except PyError FramesResult := do
  let meta ← build_meta d meta_keys
  let evals ← build_evals d
  return ⟨meta, evals⟩

/-- Decidable check that a value is a dict carrying the four
`ScoringCategory` fields. -/
def hasCategoryFields : RawVal → Bool
  | RawVal.obj fields =>
      ["score", "justification", "improvements", "score_after_improvements"].all
        (fun f => decide (f ∈ fields.map Prod.fst))
  | _ => false

/-- The evals categories of a normalizer outcome, `none` when it raised. -/
def framesEvalCategories (x : Except PyError FramesResult) : Option (List String) :=
  match x with
  | Except.ok r => some (r.evals.map (fun e => e.category))
  | Except.error _ => none

/-- (meta size, evals size) of a normalizer outcome, `none` when it raised. -/
def framesShape (x : Except PyError FramesResult) : Option (Nat × Nat) :=
  match x with
  | Except.ok r => some (r.meta.length, r.evals.length)
  | Except.error _ => none

/-! ## The orchestration around the two extended tasks

src/Py/deckcheck/app.py lines 311-454.  `quarto_task` copies the upload into
the shared temp directory, runs the render subprocess, awaits it, and returns
the markdown path — the exit status is never inspected.  `run_chat` reads the
markdown file and the prompt template; any exception there (a missing file
included) shows the chat-failure modal instead of invoking `chat_task`.
-/

/-- The markdown path `quarto_task` returns for a run. -/
def md_output_path (temp_dir : String) : String := temp_dir ++ "/my-presentation.md"

/-- Modelled from the spec: the external render tool writes its outputs
alongside the input with the same base name (spec section 6), so a run working
in `temp_dir` has its markup rendition at this path.  The render invocation
itself (`quarto render ... --to markdown,html`) is in the source; the output
location is the external tool's documented behaviour. -/
def markup_rendition_path (temp_dir : String) : String :=
  temp_dir ++ "/my-presentation.html"

/-- `quarto_task` (src/Py/deckcheck/app.py lines 313-329): the subprocess is
awaited but its exit status is never read, so the markdown path is returned
unconditionally. -/
def quarto_task (temp_dir : String) (_exit_code : ℤ) : Except PyError String :=
  Except.ok (md_output_path temp_dir)

/-- The modal text `run_quarto` shows when invoking the render task raises. -/
def render_failure_msg : String :=
  "The not so Shiny Side of LLMs. Please check that your Quarto presentation is valid and contains slides."

/-- The modal text `run_chat` shows when anything before `chat_task.invoke` raises. -/
def chat_failure_msg : String :=
  "The not so Shiny Side of LLMs. Unfortunately, chatting didn't work out. Do you have enough credits left?"

/-- What `run_chat` ends in: either `chat_task` is invoked with the prompt
template and markdown content, or the error modal is shown. -/
inductive RunChatOutcome where
  | chatInvoked (system_prompt_template markdown_content : List Char)
  | errorModal (msg : String)

/-- The prompt template path read by `run_chat`. -/
def prompt_file_path (root_dir : String) : String :=
  root_dir ++ "/prompts/prompt-analyse-slides-structured-tool.md"

/-- `run_chat` (src/Py/deckcheck/app.py lines 402-433): reads the markdown
file, reads the prompt template, and invokes `chat_task`; a missing file
raises inside the `try`, showing the chat-failure modal. -/
def run_chat (fs : String → Option (List Char)) (root_dir md_path : String) :
    RunChatOutcome :=
  match fs md_path with
  | none => RunChatOutcome.errorModal chat_failure_msg
  | some markdown_content =>
    match fs (prompt_file_path root_dir) with
    | none => RunChatOutcome.errorModal chat_failure_msg
    | some tmpl => RunChatOutcome.chatInvoked tmpl markdown_content

/-- The pipeline from render completion onward: `run_chat` fires as soon as
`quarto_task` has a result (which, exit status unread, it always does). -/
def pipeline_after_render (fs : String → Option (List Char))
    (root_dir temp_dir : String) (exit_code : ℤ) : RunChatOutcome :=
  match quarto_task temp_dir exit_code with
  | Except.ok md_path => run_chat fs root_dir md_path
  | Except.error _ => RunChatOutcome.errorModal render_failure_msg

/-! ## Concrete inputs used by the closed theorems -/

/-- A `ScoringCategory` value carrying the four fields. -/
def sample_category : RawVal :=
  RawVal.obj [("score", RawVal.intVal 7), ("justification", RawVal.str "ok"),
    ("improvements", RawVal.null), ("score_after_improvements", RawVal.intVal 9)]

/-- The six meta entries of a concrete raw analysis. -/
def meta_entries : PyDict :=
  [("presentation_title", RawVal.str "Demo"), ("total_slides", RawVal.intVal 12),
   ("percent_with_code", RawVal.floatVal 25), ("percent_with_images", RawVal.floatVal 50),
   ("estimated_duration_minutes", RawVal.intVal 10), ("tone", RawVal.str "friendly")]

/-- A raw analysis as the misspelling producer (the demo `DeckAnalysis`,
src/Py/demo/conversation-tool.py line 94) emits it: `concistency` instead of
`consistency`. -/
def d_misspelled : PyDict := meta_entries ++
  [("clarity", sample_category), ("relevance", sample_category),
   ("visual_design", sample_category), ("engagement", sample_category),
   ("pacing", sample_category), ("structure", sample_category),
   ("concistency", sample_category), ("accessibility", sample_category)]

/-- A well-formed raw analysis: the six meta fields plus the eight correctly
spelled evaluation entries. -/
def d_wellformed : PyDict :=
  meta_entries ++ category_keys.map (fun k => (k, sample_category))

/-- A raw analysis with all six meta fields but only seven evaluation entries:
`clarity` is absent. -/
def d_missing_clarity : PyDict :=
  meta_entries ++ (category_keys.drop 1).map (fun k => (k, sample_category))

/-- A file system whose rendition holds exactly one slide-boundary marker. -/
def fs_one_marker : String → Option (List Char) :=
  fun p => if p = html_file then some ("<section".data) else none

/-- A file system whose rendition holds no slide-boundary marker at all. -/
def fs_no_marker : String → Option (List Char) :=
  fun p => if p = html_file then some ("A deck with no markers at all".data) else none

/-- A rendition with five slide fragments, two of which carry the code-block
marker. -/
def five_fragment_content : List Char :=
  ("a<sectionclass=\"sourceCode\"<sectionclass=\"sourceCode\"<sectionc<sectiond").data

/-- A file system serving `five_fragment_content` at the tool's path. -/
def fs_five : String → Option (List Char) :=
  fun p => if p = html_file then some five_fragment_content else none

/-- A file system holding the markup rendition of a run whose temp directory
is `/tmp` — and nothing at the tool's hardcoded path. -/
def fs_run_tmp : String → Option (List Char) :=
  fun p => if p = markup_rendition_path "/tmp" then some ("<section>x".data) else none

/-- Markdown left in the shared temp directory by an earlier run. -/
def stale_md : List Char := ("stale slides from an earlier run").data

/-- The prompt template's content. -/
def prompt_template : List Char := ("analyse the slides").data

/-- A file system after a failed render: the fresh markdown was never written,
but the stale one from the previous run is still at the shared path. -/
def fs_stale : String → Option (List Char) :=
  fun p =>
    if p = md_output_path "/tmp" then some stale_md
    else if p = prompt_file_path "ROOT" then some prompt_template
    else none

/-- A file system after a failed render into an empty temp directory: only the
prompt template exists. -/
def fs_prompt_only : String → Option (List Char) :=
  fun p => if p = prompt_file_path "ROOT" then some prompt_template else none

/-! ## Helper lemmas -/

@[simp] theorem exc_bind_ok {α β ε : Type} (v : α) (f : α → Except ε β) :
    (Except.ok v >>= f) = f v := rfl

@[simp] theorem exc_bind_error {α β ε : Type} (e : ε) (f : α → Except ε β) :
    ((Except.error e : Except ε α) >>= f) = Except.error e := rfl

@[simp] theorem exc_pure {α ε : Type} (v : α) :
    (pure v : Except ε α) = Except.ok v := rfl

/-- With enough fuel, splitting yields one fragment more than there are
separator occurrences. -/
theorem splitOnSubAux_length (sep : List Char) :
    ∀ (fuel : Nat) (s : List Char), s.length ≤ fuel →
      (splitOnSubAux sep fuel s).length = countSubstrAux sep fuel s + 1 := by
  intro fuel
  induction fuel with
  | zero =>
    intro s hs
    cases s with
    | nil => simp [splitOnSubAux, countSubstrAux]
    | cons c rest => simp at hs
  | succ fuel ih =>
    intro s hs
    cases s with
    | nil => simp [splitOnSubAux, countSubstrAux]
    | cons c rest =>
      by_cases hcond : ((!sep.isEmpty) && sep.isPrefixOf (c :: rest)) = true
      · rw [splitOnSubAux, countSubstrAux, if_pos hcond, if_pos hcond]
        have hlen : (List.drop (sep.length - 1) rest).length ≤ fuel := by
          rw [List.length_drop]
          simp only [List.length_cons] at hs
          omega
        simp [ih _ hlen]
      · rw [splitOnSubAux, countSubstrAux, if_neg hcond, if_neg hcond]
        have hrest : rest.length ≤ fuel := by
          simp only [List.length_cons] at hs
          omega
        have ihr := ih rest hrest
        cases hsp : splitOnSubAux sep fuel rest with
        | nil => rw [hsp] at ihr; simp at ihr
        | cons f fs =>
          rw [hsp] at ihr
          simp only [List.length_cons] at ihr ⊢
          omega

/-- Splitting yields one fragment more than there are separator occurrences. -/
theorem splitOnSub_length (sep s : List Char) :
    (splitOnSub sep s).length = countSubstr sep s + 1 :=
  splitOnSubAux_length sep s.length s (le_refl _)

/-- The fragment list is never empty. -/
theorem splitOnSub_length_ne_zero (sep s : List Char) :
    (splitOnSub sep s).length ≠ 0 := by
  rw [splitOnSub_length]; omega

/-- Rounding an integer-valued rational changes nothing. -/
theorem roundHalfEven_intCast (z : ℤ) : roundHalfEven ((z : ℚ)) = z := by
  simp only [roundHalfEven, Rat.num_intCast, Rat.den_intCast]
  rw [show ((1 : ℕ) : ℤ) = 1 from rfl]
  rw [Int.fdiv_eq_ediv _ (by norm_num), Int.ediv_one]
  simp

/-- `round(q, 2)` at an integer-valued rational changes nothing. -/
theorem pyRound2_intCast (z : ℤ) : pyRound2 ((z : ℚ)) = (z : ℚ) := by
  unfold pyRound2
  rw [show ((z : ℚ) * 100) = (((z * 100 : ℤ)) : ℚ) from by push_cast; ring]
  rw [roundHalfEven_intCast]
  push_cast
  rw [mul_div_assoc]
  norm_num

/-- Once the rendition is read, `calculate_slide_metric` is its body on the
content. -/
theorem calc_eq_of_file (fs : String → Option (List Char)) (c : List Char)
    (metric : String) (hfile : fs html_file = some c) :
    calculate_slide_metric fs metric = slide_metric_of_content c metric := by
  unfold calculate_slide_metric
  rw [hfile]

/-- The `total_slides` branch returns the fragment count. -/
theorem smc_total_eq (c : List Char) :
    slide_metric_of_content c ("total_slides") =
      Except.ok (MetricValue.int (splitOnSub section_marker c).length) := rfl

/-- The `code` branch as an explicit conditional. -/
theorem smc_code_eq (c : List Char) :
    slide_metric_of_content c ("code") =
      if (splitOnSub section_marker c).length = 0 then
        Except.error PyError.zeroDivision
      else
        Except.ok (MetricValue.float (pyRound2
          ((((splitOnSub section_marker c).countP
              (fun slide => containsSub code_marker slide) : ℚ)) /
            (((splitOnSub section_marker c).length : ℚ)) * 100))) := rfl

/-- The `images` branch as an explicit conditional. -/
theorem smc_images_eq (c : List Char) :
    slide_metric_of_content c ("images") =
      if (splitOnSub section_marker c).length = 0 then
        Except.error PyError.zeroDivision
      else
        Except.ok (MetricValue.float (pyRound2
          ((((splitOnSub section_marker c).countP
              (fun slide => containsSub image_marker slide) : ℚ)) /
            (((splitOnSub section_marker c).length : ℚ)) * 100))) := rfl

/-! ## Claims about the Metric Extractor -/

/-- C3 counterexample: a rendition containing exactly one slide-boundary
marker makes `calculate_slide_metric("total_slides")` return 2, not 1 — the
function counts split fragments, one more than the markers. -/
theorem total_slides_one_marker_is_two :
    countSubstr section_marker ("<section".data) = 1 ∧
    calculate_slide_metric fs_one_marker ("total_slides") =
      Except.ok (MetricValue.int 2) ∧
    MetricValue.int 2 ≠ MetricValue.int 1 := by
  refine ⟨by decide, rfl, by decide⟩

/-- C3 (amended): on a rendition with exactly N slide-boundary markers,
`calculate_slide_metric("total_slides")` returns N + 1, the number of
fragments produced by the split. -/
theorem calculate_total_slides_eq_markers_succ
    (fs : String → Option (List Char)) (c : List Char) (N : Nat)
    (hfile : fs html_file = some c)
    (hN : countSubstr section_marker c = N) :
    calculate_slide_metric fs ("total_slides") =
      Except.ok (MetricValue.int (N + 1)) := by
  rw [calc_eq_of_file fs c _ hfile, smc_total_eq, splitOnSub_length, hN]

/-- C3 witness: the amended statement at the one-marker rendition. -/
theorem calculate_total_slides_eq_markers_succ_witness :
    calculate_slide_metric fs_one_marker ("total_slides") =
      Except.ok (MetricValue.int 2) :=
  calculate_total_slides_eq_markers_succ fs_one_marker ("<section".data) 1
    rfl (by decide)

/-- C4 counterexample: a rendition with zero slide-boundary markers does not
make the percentage metric fail with a division error — the split still yields
one fragment, and the metric returns the number 0. -/
theorem zero_marker_code_percent_is_number :
    countSubstr section_marker ("A deck with no markers at all".data) = 0 ∧
    calculate_slide_metric fs_no_marker ("code") =
      Except.ok (MetricValue.float 0) := by
  refine ⟨by decide, ?_⟩
  rw [calc_eq_of_file fs_no_marker ("A deck with no markers at all".data) _ rfl,
    smc_code_eq, if_neg (splitOnSub_length_ne_zero _ _)]
  rw [show (splitOnSub section_marker ("A deck with no markers at all".data)).countP
      (fun slide => containsSub code_marker slide) = 0 from by decide]
  rw [show (splitOnSub section_marker
      ("A deck with no markers at all".data)).length = 1 from by decide]
  rw [show ((0 : Nat) : ℚ) / ((1 : Nat) : ℚ) * 100 = ((0 : ℤ) : ℚ) from by
    push_cast; norm_num]
  rw [pyRound2_intCast]
  norm_num

/-- C4 (amended): a rendition with zero slide-boundary markers yields exactly
one slide fragment, so the code-percentage metric divides by 1 and returns a
number; the `ZeroDivisionError` state is unreachable. -/
theorem code_percent_zero_markers
    (fs : String → Option (List Char)) (c : List Char)
    (hfile : fs html_file = some c)
    (h0 : countSubstr section_marker c = 0) :
    (splitOnSub section_marker c).length = 1 ∧
    ∃ q, calculate_slide_metric fs ("code") = Except.ok (MetricValue.float q) := by
  have hlen : (splitOnSub section_marker c).length = 1 := by
    rw [splitOnSub_length, h0]
  refine ⟨hlen, ?_⟩
  rw [calc_eq_of_file fs c _ hfile, smc_code_eq, if_neg (by rw [hlen]; omega)]
  exact ⟨_, rfl⟩

/-- C4 witness: the amended statement at the marker-free rendition. -/
theorem code_percent_zero_markers_witness :
    (splitOnSub section_marker ("A deck with no markers at all".data)).length = 1 ∧
    ∃ q, calculate_slide_metric fs_no_marker ("code") =
      Except.ok (MetricValue.float q) :=
  code_percent_zero_markers fs_no_marker ("A deck with no markers at all".data)
    rfl (by decide)

/-- C8: on a rendition whose split yields N slide fragments of which exactly k
contain the code-block marker, the code-percentage metric returns
round(100 * k / N, 2). -/
theorem calculate_code_percent
    (fs : String → Option (List Char)) (c : List Char) (N k : Nat)
    (hfile : fs html_file = some c)
    (hN : (splitOnSub section_marker c).length = N)
    (hk : (splitOnSub section_marker c).countP
        (fun slide => containsSub code_marker slide) = k) :
    calculate_slide_metric fs ("code") =
      Except.ok (MetricValue.float (pyRound2 (100 * (k : ℚ) / (N : ℚ)))) := by
  have hpos : (splitOnSub section_marker c).length ≠ 0 :=
    splitOnSub_length_ne_zero section_marker c
  rw [calc_eq_of_file fs c _ hfile, smc_code_eq, if_neg hpos, hN, hk]
  have harith : ((k : ℚ) / (N : ℚ) * 100) = 100 * (k : ℚ) / (N : ℚ) := by ring
  rw [harith]

/-- C8 witness: five fragments, two with the code marker, give 40.0. -/
theorem calculate_code_percent_witness :
    calculate_slide_metric fs_five ("code") =
      Except.ok (MetricValue.float 40) := by
  have h := calculate_code_percent fs_five five_fragment_content 5 2
    rfl (by decide) (by decide)
  rw [h]
  rw [show 100 * ((2 : Nat) : ℚ) / ((5 : Nat) : ℚ) = ((40 : ℤ) : ℚ) from by
    push_cast; norm_num]
  rw [pyRound2_intCast]
  norm_num

/-- C10: for every existing rendition, whatever its contents, the fragment
count is at least 1 and each of the three recognized metric names yields a
numeric result — the percentage divisions never divide by zero. -/
theorem slide_metric_defined
    (fs : String → Option (List Char)) (c : List Char) (metric : String)
    (hfile : fs html_file = some c)
    (hm : metric = "total_slides" ∨ metric = "code" ∨ metric = "images") :
    1 ≤ (splitOnSub section_marker c).length ∧
    ∃ v, calculate_slide_metric fs metric = Except.ok v := by
  have hpos : (splitOnSub section_marker c).length ≠ 0 :=
    splitOnSub_length_ne_zero section_marker c
  refine ⟨Nat.one_le_iff_ne_zero.mpr hpos, ?_⟩
  rw [calc_eq_of_file fs c metric hfile]
  rcases hm with rfl | rfl | rfl
  · exact ⟨_, smc_total_eq c⟩
  · rw [smc_code_eq, if_neg hpos]; exact ⟨_, rfl⟩
  · rw [smc_images_eq, if_neg hpos]; exact ⟨_, rfl⟩

/-- C10 witness: the one-marker rendition with the `images` metric. -/
theorem slide_metric_defined_witness :
    1 ≤ (splitOnSub section_marker ("<section".data)).length ∧
    ∃ v, calculate_slide_metric fs_one_marker ("images") = Except.ok v :=
  slide_metric_defined fs_one_marker ("<section".data) ("images")
    rfl (Or.inr (Or.inr rfl))

/-! ## Claims about the orchestration -/

/-- C2: the Metric Extractor is never handed the run's markup rendition.  Its
path is the fixed constant `./Quarto/docs/my-presentation.html`, which differs
from the path the Render Stage produces for a run in `/tmp`; with the run's
rendition present there (and only there), invoking the tool fails with
`FileNotFoundError` instead of scanning that file. -/
theorem tool_ignores_run_rendition :
    html_file = "./Quarto/docs/my-presentation.html" ∧
    markup_rendition_path "/tmp" = "/tmp/my-presentation.html" ∧
    html_file ≠ markup_rendition_path "/tmp" ∧
    calculate_slide_metric fs_run_tmp ("total_slides") =
      Except.error (PyError.fileNotFound html_file) := by
  refine ⟨rfl, rfl, by decide, rfl⟩

/-- C7: a non-zero render exit status is invisible to the pipeline.
`quarto_task` returns the markdown path for exit status 1 exactly as for
success; with a stale markdown file in the shared temp directory the chat task
is then invoked on the stale content, and with no markdown file the
chat-failure modal (not the render-failure one) is shown. -/
theorem render_exit_status_ignored :
    quarto_task "/tmp" 1 = Except.ok (md_output_path "/tmp") ∧
    pipeline_after_render fs_stale "ROOT" "/tmp" 1 =
      RunChatOutcome.chatInvoked prompt_template stale_md ∧
    pipeline_after_render fs_prompt_only "ROOT" "/tmp" 1 =
      RunChatOutcome.errorModal chat_failure_msg ∧
    chat_failure_msg ≠ render_failure_msg := by
  refine ⟨rfl, rfl, rfl, by decide⟩

/-! ## Lemmas about the normalizer -/

/-- A dict lookup succeeds exactly for present keys. -/
theorem dictGet_ok_iff (d : PyDict) (k : String) :
    (∃ v, dictGet d k = Except.ok v) ↔ k ∈ d.map Prod.fst := by
  induction d with
  | nil => simp [dictGet]
  | cons p rest ih =>
    obtain ⟨k', v'⟩ := p
    by_cases h : k' = k
    · subst h
      simp [dictGet]
    · simp only [dictGet, if_neg h, List.map_cons, List.mem_cons, ih]
      constructor
      · intro hm
        exact Or.inr hm
      · rintro (h2 | hm)
        · exact absurd h2.symm h
        · exact hm

/-- `hasCategoryFields` says exactly that the four subscripts succeed. -/
theorem hasCategoryFields_iff (v : RawVal) :
    hasCategoryFields v = true ↔
      (∃ a, getItem v ("score") = Except.ok a) ∧
      (∃ a, getItem v ("justification") = Except.ok a) ∧
      (∃ a, getItem v ("improvements") = Except.ok a) ∧
      (∃ a, getItem v ("score_after_improvements") = Except.ok a) := by
  cases v with
  | obj fields => simp [hasCategoryFields, getItem, dictGet_ok_iff]
  | str s => simp [hasCategoryFields, getItem]
  | intVal n => simp [hasCategoryFields, getItem]
  | floatVal q => simp [hasCategoryFields, getItem]
  | null => simp [hasCategoryFields, getItem]

/-- The meta comprehension succeeds exactly when every requested key is
present. -/
theorem build_meta_ok_iff (d : PyDict) (ks : List String) :
    (∃ m, build_meta d ks = Except.ok m) ↔ ∀ k ∈ ks, k ∈ d.map Prod.fst := by
  induction ks with
  | nil => simp [build_meta]
  | cons k ks ih =>
    simp only [build_meta, List.forall_mem_cons]
    cases hv : dictGet d k with
    | error e =>
      simp only [hv, exc_bind_error]
      constructor
      · rintro ⟨m, hm⟩
        simp at hm
      · rintro ⟨hk, _⟩
        exfalso
        obtain ⟨v, hv2⟩ := (dictGet_ok_iff d k).mpr hk
        rw [hv] at hv2
        simp at hv2
    | ok v =>
      simp only [hv, exc_bind_ok]
      cases hm : build_meta d ks with
      | error e =>
        simp only [hm, exc_bind_error]
        constructor
        · rintro ⟨m, h2⟩
          simp at h2
        · rintro ⟨hk, hrest⟩
          exfalso
          obtain ⟨m, hm2⟩ := ih.mpr hrest
          rw [hm] at hm2
          simp at hm2
      | ok m =>
        simp only [hm, exc_bind_ok, exc_pure]
        constructor
        · intro _
          exact ⟨(dictGet_ok_iff d k).mp ⟨v, hv⟩, ih.mp ⟨m, hm⟩⟩
        · intro _
          exact ⟨(k, v) :: m, rfl⟩

/-- A successful meta comprehension carries exactly the requested keys, in
order. -/
theorem build_meta_shape (d : PyDict) :
    ∀ (ks : List String) (m : List (String × RawVal)),
      build_meta d ks = Except.ok m → m.map Prod.fst = ks := by
  intro ks
  induction ks with
  | nil =>
    intro m hm
    simp only [build_meta] at hm
    cases hm
    rfl
  | cons k ks ih =>
    intro m hm
    simp only [build_meta] at hm
    cases hv : dictGet d k with
    | error e =>
      rw [hv] at hm
      simp at hm
    | ok v =>
      rw [hv] at hm
      simp only [exc_bind_ok] at hm
      cases hr : build_meta d ks with
      | error e =>
        rw [hr] at hm
        simp at hm
      | ok rest =>
        rw [hr] at hm
        simp only [exc_bind_ok, exc_pure] at hm
        cases hm
        simp [ih rest hr]

/-- The evals loop succeeds exactly when every non-meta entry's value carries
the four category fields. -/
theorem build_evals_ok_iff (d : PyDict) :
    (∃ es, build_evals d = Except.ok es) ↔
      ∀ p ∈ d, p.1 ∉ meta_keys → hasCategoryFields p.2 = true := by
  induction d with
  | nil => simp [build_evals]
  | cons p rest ih =>
    obtain ⟨k, v⟩ := p
    simp only [List.forall_mem_cons]
    by_cases hk : k ∈ meta_keys
    · simp only [build_evals, if_pos hk]
      rw [ih]
      simp [hk]
    · simp only [build_evals, if_neg hk]
      cases h1 : getItem v ("score") with
      | error e =>
        simp only [h1, exc_bind_error]
        constructor
        · rintro ⟨es, hes⟩
          simp at hes
        · rintro ⟨hhead, _⟩
          exfalso
          obtain ⟨a, ha⟩ := ((hasCategoryFields_iff v).mp (hhead hk)).1
          rw [h1] at ha
          simp at ha
      | ok s1 =>
        simp only [h1, exc_bind_ok]
        cases h2 : getItem v ("justification") with
        | error e =>
          simp only [h2, exc_bind_error]
          constructor
          · rintro ⟨es, hes⟩
            simp at hes
          · rintro ⟨hhead, _⟩
            exfalso
            obtain ⟨a, ha⟩ := ((hasCategoryFields_iff v).mp (hhead hk)).2.1
            rw [h2] at ha
            simp at ha
        | ok s2 =>
          simp only [h2, exc_bind_ok]
          cases h3 : getItem v ("improvements") with
          | error e =>
            simp only [h3, exc_bind_error]
            constructor
            · rintro ⟨es, hes⟩
              simp at hes
            · rintro ⟨hhead, _⟩
              exfalso
              obtain ⟨a, ha⟩ := ((hasCategoryFields_iff v).mp (hhead hk)).2.2.1
              rw [h3] at ha
              simp at ha
          | ok s3 =>
            simp only [h3, exc_bind_ok]
            cases h4 : getItem v ("score_after_improvements") with
            | error e =>
              simp only [h4, exc_bind_error]
              constructor
              · rintro ⟨es, hes⟩
                simp at hes
              · rintro ⟨hhead, _⟩
                exfalso
                obtain ⟨a, ha⟩ := ((hasCategoryFields_iff v).mp (hhead hk)).2.2.2
                rw [h4] at ha
                simp at ha
            | ok s4 =>
              simp only [h4, exc_bind_ok]
              cases hrec : build_evals rest with
              | error e =>
                simp only [hrec, exc_bind_error]
                constructor
                · rintro ⟨es, hes⟩
                  simp at hes
                · rintro ⟨_, hrest⟩
                  exfalso
                  obtain ⟨es, hes⟩ := ih.mpr hrest
                  rw [hrec] at hes
                  simp at hes
              | ok es' =>
                simp only [hrec, exc_bind_ok, exc_pure]
                constructor
                · intro _
                  refine ⟨fun _ => (hasCategoryFields_iff v).mpr
                    ⟨⟨s1, h1⟩, ⟨s2, h2⟩, ⟨s3, h3⟩, ⟨s4, h4⟩⟩, ih.mp ⟨es', hrec⟩⟩
                · intro _
                  exact ⟨_, rfl⟩

/-- A successful evals loop yields one record per non-meta entry. -/
theorem build_evals_length (d : PyDict) :
    ∀ es, build_evals d = Except.ok es →
      es.length = d.countP (fun p => !(decide (p.1 ∈ meta_keys))) := by
  induction d with
  | nil =>
    intro es hes
    simp only [build_evals] at hes
    cases hes
    rfl
  | cons p rest ih =>
    obtain ⟨k, v⟩ := p
    intro es hes
    by_cases hk : k ∈ meta_keys
    · simp only [build_evals, if_pos hk] at hes
      simp [List.countP_cons, hk, ih es hes]
    · simp only [build_evals, if_neg hk] at hes
      cases h1 : getItem v ("score") with
      | error e =>
        rw [h1] at hes
        simp at hes
      | ok s1 =>
        rw [h1] at hes
        simp only [exc_bind_ok] at hes
        cases h2 : getItem v ("justification") with
        | error e =>
          rw [h2] at hes
          simp at hes
        | ok s2 =>
          rw [h2] at hes
          simp only [exc_bind_ok] at hes
          cases h3 : getItem v ("improvements") with
          | error e =>
            rw [h3] at hes
            simp at hes
          | ok s3 =>
            rw [h3] at hes
            simp only [exc_bind_ok] at hes
            cases h4 : getItem v ("score_after_improvements") with
            | error e =>
              rw [h4] at hes
              simp at hes
            | ok s4 =>
              rw [h4] at hes
              simp only [exc_bind_ok] at hes
              cases hrec : build_evals rest with
              | error e =>
                rw [hrec] at hes
                simp at hes
              | ok es' =>
                rw [hrec] at hes
                simp only [exc_bind_ok, exc_pure] at hes
                cases hes
                simp [List.countP_cons, hk, ih es' hrec]

/-! ## Claims about the normalizer -/

/-- C1: `make_frames` does not canonicalize the misspelled key.  On a raw
analysis whose evaluation entries carry `concistency`, the evals sequence
contains an entry with category `concistency` and none with category
`consistency` — the `# fix typo` comment in the source has no effect. -/
theorem make_frames_keeps_misspelled_key :
    framesEvalCategories (make_frames d_misspelled) =
      some ["clarity", "relevance", "visual_design", "engagement",
            "pacing", "structure", "concistency", "accessibility"] ∧
    "concistency" ∈ (framesEvalCategories (make_frames d_misspelled)).getD [] ∧
    "consistency" ∉ (framesEvalCategories (make_frames d_misspelled)).getD [] := by
  decide

/-- C5: on a well-formed raw analysis — keys a permutation of the six meta
keys plus the eight category keys, category values carrying the four fields —
`make_frames` succeeds with a meta record of exactly the six defined fields
and exactly eight eval records. -/
theorem make_frames_shape (d : PyDict)
    (hkeys : (d.map Prod.fst).Perm (meta_keys ++ category_keys))
    (hvals : ∀ p ∈ d, p.1 ∈ category_keys → hasCategoryFields p.2 = true) :
    ∃ r, make_frames d = Except.ok r ∧ r.meta.map Prod.fst = meta_keys ∧
      r.meta.length = 6 ∧ r.evals.length = 8 := by
  have hmeta : ∀ k ∈ meta_keys, k ∈ d.map Prod.fst := fun k hk =>
    hkeys.mem_iff.mpr (List.mem_append_left _ hk)
  obtain ⟨m, hm⟩ := (build_meta_ok_iff d meta_keys).mpr hmeta
  have hevalsOK : ∀ p ∈ d, p.1 ∉ meta_keys → hasCategoryFields p.2 = true := by
    intro p hp hnot
    apply hvals p hp
    have hmem : p.1 ∈ meta_keys ++ category_keys :=
      hkeys.mem_iff.mp (List.mem_map_of_mem Prod.fst hp)
    rcases List.mem_append.mp hmem with h | h
    · exact absurd h hnot
    · exact h
  obtain ⟨es, hes⟩ := (build_evals_ok_iff d).mpr hevalsOK
  have hmap := build_meta_shape d meta_keys m hm
  have hlen8 : es.length = 8 := by
    rw [build_evals_length d es hes]
    have hc : d.countP (fun p => !(decide (p.1 ∈ meta_keys))) =
        (d.map Prod.fst).countP (fun k => !(decide (k ∈ meta_keys))) := by
      rw [List.countP_map]
      rfl
    rw [hc, hkeys.countP_eq]
    decide
  refine ⟨⟨m, es⟩, ?_, hmap, ?_, hlen8⟩
  · simp [make_frames, hm, hes]
  · have hl := congrArg List.length hmap
    simpa using hl

/-- C5 witness: the concrete well-formed raw analysis. -/
theorem make_frames_shape_witness :
    ∃ r, make_frames d_wellformed = Except.ok r ∧
      r.meta.map Prod.fst = meta_keys ∧ r.meta.length = 6 ∧
      r.evals.length = 8 := by
  apply make_frames_shape d_wellformed
  · rw [show d_wellformed.map Prod.fst = meta_keys ++ category_keys from by decide]
  · decide

/-- C6 counterexample: a raw analysis with all six meta keys but only seven of
the eight required evaluation keys (no `clarity`) makes `make_frames` return
normally with seven eval records — no `MalformedInput`-style failure occurs. -/
theorem make_frames_missing_eval_key_ok :
    framesShape (make_frames d_missing_clarity) = some (6, 7) := by
  decide

/-- C6 (amended): `make_frames` is pure and validates nothing about the eight
evaluation keys; it succeeds exactly when the six meta keys are present and
every non-meta value carries the four category fields, and its only failures
are the `KeyError`/`TypeError` raised by those lookups. -/
theorem make_frames_ok_iff (d : PyDict) :
    (∃ r, make_frames d = Except.ok r) ↔
      ((∀ k ∈ meta_keys, k ∈ d.map Prod.fst) ∧
       (∀ p ∈ d, p.1 ∉ meta_keys → hasCategoryFields p.2 = true)) := by
  unfold make_frames
  cases hm : build_meta d meta_keys with
  | error e =>
    simp only [hm, exc_bind_error]
    constructor
    · rintro ⟨r, hr⟩
      simp at hr
    · rintro ⟨hmeta, _⟩
      exfalso
      obtain ⟨m, hm2⟩ := (build_meta_ok_iff d meta_keys).mpr hmeta
      rw [hm] at hm2
      simp at hm2
  | ok m =>
    simp only [hm, exc_bind_ok]
    cases he : build_evals d with
    | error e =>
      simp only [he, exc_bind_error]
      constructor
      · rintro ⟨r, hr⟩
        simp at hr
      · rintro ⟨_, hev⟩
        exfalso
        obtain ⟨es, he2⟩ := (build_evals_ok_iff d).mpr hev
        rw [he] at he2
        simp at he2
    | ok es =>
      simp only [he, exc_bind_ok, exc_pure]
      constructor
      · intro _
        exact ⟨(build_meta_ok_iff d meta_keys).mp ⟨m, hm⟩,
               (build_evals_ok_iff d).mp ⟨es, he⟩⟩
      · intro _
        exact ⟨⟨m, es⟩, rfl⟩
